import Mathlib

/-!
Shallow embedding of the worker-driver core of the repository
(`src/server/worker/driver/testing.go` and the collaborators its spec
describes), together with proofs of the specified properties.

Go conventions used throughout the embedding:
* a Go `error` result is an `Option String` (`none` = `nil`);
* Go pointers into mutable cells are indices into an explicit heap,
  modelled as a `List` of cells (allocation appends a cell);
* opaque foreign handles (`context.Context`, `*etcd.Client`) are wrapped
  numeric identifiers.
-/

/-- `pps.ProcessStats`: aggregated per-datum processing statistics
(time spent uploading / downloading / processing, bytes moved). -/
structure pps.ProcessStats where
  DownloadTime : Nat := 0
  ProcessTime : Nat := 0
  UploadTime : Nat := 0
  DownloadBytes : Nat := 0
  UploadBytes : Nat := 0
  deriving DecidableEq, Inhabited

/-- `pps.PipelineInfo`: the pipeline configuration a driver is bound to. -/
structure pps.PipelineInfo where
  Name : String
  Version : Nat
  deriving DecidableEq, Inhabited

/-- Go `context.Context`, modelled as an opaque identifier. -/
structure Context where
  id : Nat
  deriving DecidableEq, Inhabited

/-- `context.Background()`. -/
def context.Background : Context := ⟨0⟩

/-- Modelled from the spec: `cache.WorkerCache` (not under `src/`) — a chunk
cache occupying "a dedicated root directory passed in at construction";
the embedding records that root. -/
structure cache.WorkerCache where
  root : String
  deriving DecidableEq, Inhabited

/-- `cache.NewWorkerCache(root)`. -/
def cache.NewWorkerCache (root : String) : cache.WorkerCache := ⟨root⟩

/-- Helper for `filepath.Join`: interleave "/" between the components. -/
def joinNonEmpty : List String → String
  | [] => ""
  | [a] => a
  | a :: b :: rest => a ++ "/" ++ joinNonEmpty (b :: rest)

/-- Go `filepath.Join`: drops empty components and joins the rest with "/"
(path cleaning is the identity on the slash-free components used here). -/
def filepath.Join (parts : List String) : String :=
  joinNonEmpty (parts.filter (fun s => s != ""))

/-- `MockOptions` (testing.go): options used by the MockDriver. -/
structure MockOptions where
  NumWorkers : Int
  NumShards : Int
  EtcdPrefix : String
  PipelineInfo : pps.PipelineInfo
  HashtreePath : String
  deriving DecidableEq, Inhabited

/-- `MockDriver` (testing.go). `options` is a pointer (heap index) to a
`MockOptions` cell, as in the Go struct. -/
structure MockDriver where
  ctx : Context
  options : Nat
  etcdClient : Nat
  chunkCache : Option cache.WorkerCache
  chunkStatsCache : Option cache.WorkerCache
  deriving DecidableEq, Inhabited

/-- The two defaulting statements of `NewMockDriver` (testing.go), applied to
the private copy of the caller's options: a zero `NumWorkers` and a zero
`NumShards` each become 1. -/
def applyMockDefaults (o : MockOptions) : MockOptions :=
  let o1 := if o.NumWorkers == 0 then { o with NumWorkers := 1 } else o
  if o1.NumShards == 0 then { o1 with NumShards := 1 } else o1

theorem applyMockDefaults_hashtreePath (o : MockOptions) :
    (applyMockDefaults o).HashtreePath = o.HashtreePath := by
  unfold applyMockDefaults
  dsimp only
  split <;> split <;> rfl

theorem applyMockDefaults_numWorkers (o : MockOptions) :
    (applyMockDefaults o).NumWorkers = if o.NumWorkers = 0 then 1 else o.NumWorkers := by
  unfold applyMockDefaults
  dsimp only
  split <;> split <;> simp_all [beq_iff_eq]

theorem applyMockDefaults_numShards (o : MockOptions) :
    (applyMockDefaults o).NumShards = if o.NumShards = 0 then 1 else o.NumShards := by
  unfold applyMockDefaults
  dsimp only
  split <;> split <;> simp_all [beq_iff_eq]

/-- `NewMockDriver` (testing.go): copies the caller's options into a freshly
allocated cell (`options := &MockOptions{}; *options = *userOptions`),
defaults a zero `NumWorkers` / `NumShards` to 1 on that copy, and builds the
chunk caches under `<HashtreePath>/chunk` and `<HashtreePath>/chunkStats`
when `HashtreePath` is non-empty. Returns the driver and the updated heap. -/
def NewMockDriver (heap : List MockOptions) (etcdClient : Nat) (userOptions : Nat) :
    MockDriver × List MockOptions :=
  let options := applyMockDefaults (heap.getD userOptions default)
  let md : MockDriver :=
    { ctx := context.Background
      options := heap.length
      etcdClient := etcdClient
      chunkCache :=
        if options.HashtreePath != "" then
          some (cache.NewWorkerCache (filepath.Join [options.HashtreePath, "chunk"]))
        else none
      chunkStatsCache :=
        if options.HashtreePath != "" then
          some (cache.NewWorkerCache (filepath.Join [options.HashtreePath, "chunkStats"]))
        else none }
  (md, heap ++ [options])

/-- `MockDriver.WithCtx` (testing.go): clones the driver and replaces only
the stored context. -/
def MockDriver.WithCtx (md : MockDriver) (ctx : Context) : MockDriver :=
  { md with ctx := ctx }

/-- `MockDriver.ChunkCache` (testing.go). -/
def MockDriver.ChunkCache (md : MockDriver) : Option cache.WorkerCache := md.chunkCache

/-- `MockDriver.ChunkStatsCache` (testing.go). -/
def MockDriver.ChunkStatsCache (md : MockDriver) : Option cache.WorkerCache :=
  md.chunkStatsCache

/-- `MockDriver.GetExpectedNumWorkers` (testing.go): returns the configured
number of workers and a nil error. -/
def MockDriver.GetExpectedNumWorkers (heap : List MockOptions) (md : MockDriver) :
    Int × Option String :=
  ((heap.getD md.options default).NumWorkers, none)

/-- `MockDriver.NumShards` (testing.go): `int64(md.options.NumShards)`. -/
def MockDriver.NumShards (heap : List MockOptions) (md : MockDriver) : Int :=
  (heap.getD md.options default).NumShards

/-- `MockDriver.PipelineInfo` (testing.go). -/
def MockDriver.PipelineInfo (heap : List MockOptions) (md : MockDriver) : pps.PipelineInfo :=
  (heap.getD md.options default).PipelineInfo

/-- `MockDriver.InputDir` (testing.go): always `/pfs`. -/
def MockDriver.InputDir (_md : MockDriver) : String := "/pfs"

/-- C8: `ChunkCache()` and `ChunkStatsCache()` of a driver built by
`NewMockDriver` are nil exactly when the options' `HashtreePath` is the empty
string (so for a non-empty `HashtreePath` both are non-nil). -/
theorem chunkCache_nil_iff_empty_hashtreePath (heap : List MockOptions) (ec p : Nat) :
    ((NewMockDriver heap ec p).1.ChunkCache = none
        ↔ (heap.getD p default).HashtreePath = "")
    ∧ ((NewMockDriver heap ec p).1.ChunkStatsCache = none
        ↔ (heap.getD p default).HashtreePath = "") := by
  unfold NewMockDriver MockDriver.ChunkCache MockDriver.ChunkStatsCache
  simp only [applyMockDefaults_hashtreePath, bne_iff_ne]
  by_cases hP : (heap.getD p default).HashtreePath = "" <;> simp [hP]

/-- C10: `WithCtx` returns a driver that differs from the receiver only in
its stored context: options pointer, etcd client and both chunk caches are
shared unchanged, and (being a pure clone) the receiver is untouched. -/
theorem withCtx_clone_only_ctx (md : MockDriver) (c : Context) :
    (md.WithCtx c).ctx = c
    ∧ (md.WithCtx c).options = md.options
    ∧ (md.WithCtx c).etcdClient = md.etcdClient
    ∧ (md.WithCtx c).chunkCache = md.chunkCache
    ∧ (md.WithCtx c).chunkStatsCache = md.chunkStatsCache :=
  ⟨rfl, rfl, rfl, rfl, rfl⟩

/-- Options cell exhibiting the failure of C9 as stated: a negative
`NumWorkers` is not zero, so it is not defaulted to 1. -/
def negWorkerOptions : MockOptions :=
  { NumWorkers := -1
    NumShards := 1
    EtcdPrefix := ""
    PipelineInfo := { Name := "p", Version := 1 }
    HashtreePath := "" }

/-- C9 counterexample: constructing a driver from options with
`NumWorkers = -1` makes `GetExpectedNumWorkers` return `-1`, which is not
at least 1, refuting the unconditional lower bound claimed. -/
theorem getExpectedNumWorkers_neg_counterexample :
    (MockDriver.GetExpectedNumWorkers (NewMockDriver [negWorkerOptions] 0 0).2
        (NewMockDriver [negWorkerOptions] 0 0).1).1 = -1
    ∧ ¬ (1 ≤ (MockDriver.GetExpectedNumWorkers (NewMockDriver [negWorkerOptions] 0 0).2
        (NewMockDriver [negWorkerOptions] 0 0).1).1) := by
  constructor
  · rfl
  · decide

/-- C9 (amended): `NewMockDriver` applies defaults to a private copy placed in
a fresh cell — every pre-existing heap cell, in particular the caller's
options, is unchanged — zero `NumWorkers`/`NumShards` default to 1, and when
the caller's counts are nonnegative the constructed driver reports a worker
count of at least 1 with a nil error and at least 1 shard. -/
theorem newMockDriver_frame_and_defaults (heap : List MockOptions) (ec p : Nat)
    (hW : 0 ≤ (heap.getD p default).NumWorkers)
    (hS : 0 ≤ (heap.getD p default).NumShards) :
    (∀ i, i < heap.length →
        (NewMockDriver heap ec p).2.getD i default = heap.getD i default)
    ∧ (NewMockDriver heap ec p).1.options = heap.length
    ∧ 1 ≤ (MockDriver.GetExpectedNumWorkers (NewMockDriver heap ec p).2
        (NewMockDriver heap ec p).1).1
    ∧ (MockDriver.GetExpectedNumWorkers (NewMockDriver heap ec p).2
        (NewMockDriver heap ec p).1).2 = none
    ∧ 1 ≤ MockDriver.NumShards (NewMockDriver heap ec p).2 (NewMockDriver heap ec p).1 := by
  refine ⟨?_, rfl, ?_, rfl, ?_⟩
  · intro i hi
    simp [NewMockDriver, List.getD, List.getElem?_append, hi]
  · unfold MockDriver.GetExpectedNumWorkers NewMockDriver
    simp only [List.getD, List.get?_eq_getElem?] at hW
    simp only [List.getD, List.get?_eq_getElem?, List.getElem?_concat_length, Option.getD_some,
      applyMockDefaults_numWorkers]
    split <;> omega
  · unfold MockDriver.NumShards NewMockDriver
    simp only [List.getD, List.get?_eq_getElem?] at hS
    simp only [List.getD, List.get?_eq_getElem?, List.getElem?_concat_length, Option.getD_some,
      applyMockDefaults_numShards]
    split <;> omega

/-- Options cell with zero counts, used to exercise the defaulting path. -/
def zeroCountOptions : MockOptions :=
  { NumWorkers := 0
    NumShards := 0
    EtcdPrefix := ""
    PipelineInfo := { Name := "p", Version := 1 }
    HashtreePath := "" }

/-- Witness for C9 (amended) at a concrete heap with nonnegative counts. -/
theorem newMockDriver_frame_and_defaults_witness :
    (0 ≤ ([zeroCountOptions].getD 0 default).NumWorkers)
    ∧ 1 ≤ (MockDriver.GetExpectedNumWorkers (NewMockDriver [zeroCountOptions] 0 0).2
        (NewMockDriver [zeroCountOptions] 0 0).1).1 :=
  ⟨by decide,
   (newMockDriver_frame_and_defaults [zeroCountOptions] 0 0
      (by decide) (by decide)).2.2.1⟩

/-- A worker's local filesystem, modelled as the list of existing directory
paths (files inside a directory are not distinguished from subdirectories:
`RemoveAll` removes the whole subtree either way). -/
structure FS where
  dirs : List String
  deriving DecidableEq, Inhabited

/-- `p` lies in the subtree rooted at `dir`: it is `dir` itself or below it. -/
def isUnder (p dir : String) : Bool :=
  p == dir || p.startsWith (dir ++ "/")

/-- `os.MkdirAll`: creates the directory (failure injected by `fails`,
in which case nothing is created). -/
def FS.mkdirAll (fs : FS) (fails : Bool) (p : String) : Option String × FS :=
  if fails then (some "mkdir failed", fs) else (none, ⟨p :: fs.dirs⟩)

/-- `os.RemoveAll`: removes `p` and everything under it; its nil error is
what the deferred `if retErr == nil` checks in `WithDatumCache` observe. -/
def FS.removeAll (fs : FS) (p : String) : FS :=
  ⟨fs.dirs.filter (fun d => !(isUnder d p))⟩

/-- No directory of `fs` lies in the subtree rooted at `p`. -/
def FS.noneUnder (fs : FS) (p : String) : Bool :=
  fs.dirs.all (fun d => !(isUnder d p))

theorem removeAll_noneUnder_self (fs : FS) (p : String) :
    (fs.removeAll p).noneUnder p = true := by
  simp only [FS.removeAll, FS.noneUnder, List.all_eq_true]
  intro d hd
  exact (List.mem_filter.mp hd).2

theorem noneUnder_removeAll (fs : FS) (p q : String) (h : fs.noneUnder p = true) :
    (fs.removeAll q).noneUnder p = true := by
  simp only [FS.removeAll, FS.noneUnder, List.all_eq_true] at h ⊢
  intro d hd
  exact h d (List.mem_filter.mp hd).1

/-- Modelled from the spec: `uuid.NewWithoutDashes` (not under `src/`) is a
source of fresh run IDs; the embedding renders a generator counter as a
string injectively (distinct counters give distinct IDs). -/
def uuidString : Nat → String
  | 0 => "u"
  | n + 1 => uuidString n ++ "u"

/-- `uuid.NewWithoutDashes`: returns the fresh ID and the advanced generator. -/
def uuid.NewWithoutDashes (gen : Nat) : String × Nat := (uuidString gen, gen + 1)

theorem uuidString_length (n : Nat) : (uuidString n).length = n + 1 := by
  induction n with
  | zero => rfl
  | succ n ih =>
    have hu : ("u" : String).length = 1 := rfl
    simp [uuidString, ih, hu]

theorem uuidString_injective {m n : Nat} (h : uuidString m = uuidString n) : m = n := by
  have := congrArg String.length h
  simpa [uuidString_length] using this

theorem uuidString_ne_empty (n : Nat) : uuidString n ≠ "" := by
  intro h
  have := congrArg String.length h
  simp [uuidString_length] at this

/-- Modelled from the spec: `hashtree.MergeCache` (not under `src/`) — the
per-run merge cache: a root directory plus one serialized partial tree per
datum ordinal. -/
structure hashtree.MergeCache where
  root : String
  entries : List (Nat × String)
  deriving DecidableEq, Inhabited

/-- `hashtree.NewMergeCache(root)`: an empty merge cache rooted at `root`. -/
def hashtree.NewMergeCache (root : String) : hashtree.MergeCache := ⟨root, []⟩

/-- The per-run datum cache directory `filepath.Join(HashtreePath, "datum", cacheID)`. -/
def datumCachePath (hashtreePath cacheID : String) : String :=
  filepath.Join [hashtreePath, "datum", cacheID]

/-- The per-run stats cache directory `filepath.Join(HashtreePath, "datumStats", cacheID)`. -/
def statsCachePath (hashtreePath cacheID : String) : String :=
  filepath.Join [hashtreePath, "datumStats", cacheID]

/-- The filesystem as it stands when `WithDatumCache` invokes its callback:
both per-run directories have been created on top of `fs`. -/
def cbInputFS (hashtreePath cacheID : String) (fs : FS) : FS :=
  ⟨statsCachePath hashtreePath cacheID :: datumCachePath hashtreePath cacheID :: fs.dirs⟩

/-- Body of `MockDriver.WithDatumCache` (testing.go) once the run ID is fixed:
`MkdirAll` both per-run directories (each with a deferred `RemoveAll`), build
the two merge caches, and run the callback; the deferred removals run in LIFO
order on every return path. `MkdirAll` failures are injected by
`failMk1`/`failMk2`; the callback receives the filesystem and both caches and
returns the updated filesystem with its error. -/
def withDatumCacheBody (hashtreePath cacheID : String) (fs : FS)
    (failMk1 failMk2 : Bool)
    (cb : FS → hashtree.MergeCache → hashtree.MergeCache → FS × Option String) :
    Option String × FS :=
  let dPath := datumCachePath hashtreePath cacheID
  let sPath := statsCachePath hashtreePath cacheID
  match fs.mkdirAll failMk1 dPath with
  | (some e, fs1) => (some e, fs1)
  | (none, fs1) =>
    match fs1.mkdirAll failMk2 sPath with
    | (some e, fs2) => (some e, fs2.removeAll dPath)
    | (none, fs2) =>
      let r := cb fs2 (hashtree.NewMergeCache dPath) (hashtree.NewMergeCache sPath)
      (r.2, (r.1.removeAll sPath).removeAll dPath)

/-- `MockDriver.WithDatumCache` (testing.go): draw a fresh run ID from the
uuid generator and run the body; returns (error, filesystem) and the advanced
generator. `hashtreePath` stands for `md.options.HashtreePath`. -/
def MockDriver.WithDatumCache (hashtreePath : String) (gen : Nat) (fs : FS)
    (failMk1 failMk2 : Bool)
    (cb : FS → hashtree.MergeCache → hashtree.MergeCache → FS × Option String) :
    (Option String × FS) × Nat :=
  let (cacheID, gen') := uuid.NewWithoutDashes gen
  (withDatumCacheBody hashtreePath cacheID fs failMk1 failMk2 cb, gen')

theorem isUnder_self (p : String) : isUnder p p = true := by
  simp [isUnder]

/-- Shared cleanup fact: whatever the injected mkdir failures and whatever the
callback does to the filesystem, after `withDatumCacheBody` no directory lies
under either per-run cache directory (provided none did beforehand). -/
theorem withDatumCacheBody_cleans (hashtreePath cacheID : String) (fs : FS)
    (failMk1 failMk2 : Bool)
    (cb : FS → hashtree.MergeCache → hashtree.MergeCache → FS × Option String)
    (hd : fs.noneUnder (datumCachePath hashtreePath cacheID) = true)
    (hs : fs.noneUnder (statsCachePath hashtreePath cacheID) = true) :
    (withDatumCacheBody hashtreePath cacheID fs failMk1 failMk2 cb).2.noneUnder
        (datumCachePath hashtreePath cacheID) = true
    ∧ (withDatumCacheBody hashtreePath cacheID fs failMk1 failMk2 cb).2.noneUnder
        (statsCachePath hashtreePath cacheID) = true := by
  cases failMk1 with
  | true =>
    constructor
    · simpa [withDatumCacheBody, FS.mkdirAll] using hd
    · simpa [withDatumCacheBody, FS.mkdirAll] using hs
  | false =>
    cases failMk2 with
    | true =>
      constructor
      · simp only [withDatumCacheBody, FS.mkdirAll, Bool.false_eq_true, ite_false, ite_true]
        exact removeAll_noneUnder_self _ _
      · simp only [withDatumCacheBody, FS.mkdirAll, Bool.false_eq_true, ite_false, ite_true]
        simp only [FS.removeAll, FS.noneUnder, List.all_eq_true]
        intro d hdm
        have hm := List.mem_filter.mp hdm
        rcases List.mem_cons.mp hm.1 with hcase | hcase
        · exfalso
          have : isUnder d (datumCachePath hashtreePath cacheID) = true := by
            rw [hcase]; exact isUnder_self _
          simp [this] at hm
        · simp only [FS.noneUnder, List.all_eq_true] at hs
          exact hs d hcase
    | false =>
      constructor
      · simp only [withDatumCacheBody, FS.mkdirAll, Bool.false_eq_true, ite_false]
        exact removeAll_noneUnder_self _ _
      · simp only [withDatumCacheBody, FS.mkdirAll, Bool.false_eq_true, ite_false]
        exact noneUnder_removeAll _ _ _ (removeAll_noneUnder_self _ _)

/-- C1: `WithDatumCache` creates the two per-run merge-cache directories (one
under `datum`, one under `datumStats`, both named by the fresh run ID) before
the callback runs, and on every exit path — callback returning nil, callback
returning an error, or creation of the second directory failing — removes
them, so no per-run cache directory persists after the call returns. -/
theorem withDatumCache_scoped_cleanup (hashtreePath : String) (gen : Nat) (fs : FS)
    (failMk1 failMk2 : Bool)
    (cb : FS → hashtree.MergeCache → hashtree.MergeCache → FS × Option String)
    (hd : fs.noneUnder (datumCachePath hashtreePath (uuidString gen)) = true)
    (hs : fs.noneUnder (statsCachePath hashtreePath (uuidString gen)) = true) :
    (failMk1 = false → failMk2 = false →
      (MockDriver.WithDatumCache hashtreePath gen fs failMk1 failMk2 cb).1 =
        (let r := cb (cbInputFS hashtreePath (uuidString gen) fs)
            (hashtree.NewMergeCache (datumCachePath hashtreePath (uuidString gen)))
            (hashtree.NewMergeCache (statsCachePath hashtreePath (uuidString gen)))
         (r.2, (r.1.removeAll (statsCachePath hashtreePath (uuidString gen))).removeAll
            (datumCachePath hashtreePath (uuidString gen))))
      ∧ datumCachePath hashtreePath (uuidString gen)
          ∈ (cbInputFS hashtreePath (uuidString gen) fs).dirs
      ∧ statsCachePath hashtreePath (uuidString gen)
          ∈ (cbInputFS hashtreePath (uuidString gen) fs).dirs)
    ∧ (MockDriver.WithDatumCache hashtreePath gen fs failMk1 failMk2 cb).1.2.noneUnder
        (datumCachePath hashtreePath (uuidString gen)) = true
    ∧ (MockDriver.WithDatumCache hashtreePath gen fs failMk1 failMk2 cb).1.2.noneUnder
        (statsCachePath hashtreePath (uuidString gen)) = true := by
  have hclean := withDatumCacheBody_cleans hashtreePath (uuidString gen) fs
    failMk1 failMk2 cb hd hs
  refine ⟨?_, hclean.1, hclean.2⟩
  intro h1 h2
  subst h1; subst h2
  exact ⟨rfl, by simp [cbInputFS], by simp [cbInputFS]⟩

/-- Witness for C1 at a concrete run: empty filesystem, root "r", generator 0,
no injected failures, callback succeeding without touching the filesystem. -/
theorem withDatumCache_scoped_cleanup_witness :
    (FS.mk []).noneUnder (datumCachePath "r" (uuidString 0)) = true
    ∧ (MockDriver.WithDatumCache "r" 0 ⟨[]⟩ false false
        (fun s _ _ => (s, none))).1.2.noneUnder (datumCachePath "r" (uuidString 0)) = true
    ∧ (MockDriver.WithDatumCache "r" 0 ⟨[]⟩ false false
        (fun s _ _ => (s, none))).1.2.noneUnder (statsCachePath "r" (uuidString 0)) = true :=
  ⟨rfl,
   (withDatumCache_scoped_cleanup "r" 0 ⟨[]⟩ false false
      (fun s _ _ => (s, none)) rfl rfl).2.1,
   (withDatumCache_scoped_cleanup "r" 0 ⟨[]⟩ false false
      (fun s _ _ => (s, none)) rfl rfl).2.2⟩

theorem filepath_join_two (a b : String) (ha : a ≠ "") (hb : b ≠ "") :
    filepath.Join [a, b] = a ++ "/" ++ b := by
  have ha' : (a != "") = true := by simpa [bne_iff_ne] using ha
  have hb' : (b != "") = true := by simpa [bne_iff_ne] using hb
  simp [filepath.Join, List.filter, ha', hb', joinNonEmpty]

theorem filepath_join_three (a b c : String) (ha : a ≠ "") (hb : b ≠ "") (hc : c ≠ "") :
    filepath.Join [a, b, c] = a ++ "/" ++ b ++ "/" ++ c := by
  have ha' : (a != "") = true := by simpa [bne_iff_ne] using ha
  have hb' : (b != "") = true := by simpa [bne_iff_ne] using hb
  have hc' : (c != "") = true := by simpa [bne_iff_ne] using hc
  simp [filepath.Join, List.filter, ha', hb', hc', joinNonEmpty, String.append_assoc]

/-- C4: with a non-empty storage root, the chunk cache lives at
`<root>/chunk`, the chunk-stats cache at `<root>/chunkStats`, each
`WithDatumCache` run owns `<root>/datum/<runID>` and
`<root>/datumStats/<runID>` with the run ID freshly generated per call (the
generator advances, so the next call's ID differs), and the run directories
are removed when the run completes. -/
theorem cache_disk_layout (heap : List MockOptions) (ec p : Nat)
    (gen : Nat) (fs : FS) (failMk1 failMk2 : Bool)
    (cb : FS → hashtree.MergeCache → hashtree.MergeCache → FS × Option String)
    (hr : (heap.getD p default).HashtreePath ≠ "")
    (hd : fs.noneUnder
        (datumCachePath (heap.getD p default).HashtreePath (uuidString gen)) = true)
    (hs : fs.noneUnder
        (statsCachePath (heap.getD p default).HashtreePath (uuidString gen)) = true) :
    (NewMockDriver heap ec p).1.ChunkCache =
        some (cache.NewWorkerCache ((heap.getD p default).HashtreePath ++ "/chunk"))
    ∧ (NewMockDriver heap ec p).1.ChunkStatsCache =
        some (cache.NewWorkerCache ((heap.getD p default).HashtreePath ++ "/chunkStats"))
    ∧ datumCachePath (heap.getD p default).HashtreePath (uuidString gen) =
        (heap.getD p default).HashtreePath ++ "/datum/" ++ uuidString gen
    ∧ statsCachePath (heap.getD p default).HashtreePath (uuidString gen) =
        (heap.getD p default).HashtreePath ++ "/datumStats/" ++ uuidString gen
    ∧ (MockDriver.WithDatumCache (heap.getD p default).HashtreePath gen fs
        failMk1 failMk2 cb).2 = gen + 1
    ∧ uuidString gen ≠ uuidString (gen + 1)
    ∧ (MockDriver.WithDatumCache (heap.getD p default).HashtreePath gen fs
        failMk1 failMk2 cb).1.2.noneUnder
        (datumCachePath (heap.getD p default).HashtreePath (uuidString gen)) = true
    ∧ (MockDriver.WithDatumCache (heap.getD p default).HashtreePath gen fs
        failMk1 failMk2 cb).1.2.noneUnder
        (statsCachePath (heap.getD p default).HashtreePath (uuidString gen)) = true := by
  have hclean := withDatumCacheBody_cleans (heap.getD p default).HashtreePath
    (uuidString gen) fs failMk1 failMk2 cb hd hs
  refine ⟨?_, ?_, ?_, ?_, rfl, ?_, hclean.1, hclean.2⟩
  · unfold NewMockDriver MockDriver.ChunkCache
    have hq : ((applyMockDefaults (heap.getD p default)).HashtreePath != "") = true := by
      simp only [bne_iff_ne, ne_eq, applyMockDefaults_hashtreePath]
      exact hr
    simp only [hq, ite_true]
    rw [applyMockDefaults_hashtreePath,
      filepath_join_two (heap.getD p default).HashtreePath "chunk" hr (by decide)]
    simp [String.append_assoc]
  · unfold NewMockDriver MockDriver.ChunkStatsCache
    have hq : ((applyMockDefaults (heap.getD p default)).HashtreePath != "") = true := by
      simp only [bne_iff_ne, ne_eq, applyMockDefaults_hashtreePath]
      exact hr
    simp only [hq, ite_true]
    rw [applyMockDefaults_hashtreePath,
      filepath_join_two (heap.getD p default).HashtreePath "chunkStats" hr (by decide)]
    simp [String.append_assoc]
  · unfold datumCachePath
    rw [filepath_join_three _ _ _ hr (by decide) (uuidString_ne_empty gen)]
    simp [String.append_assoc]
  · unfold statsCachePath
    rw [filepath_join_three _ _ _ hr (by decide) (uuidString_ne_empty gen)]
    simp [String.append_assoc]
  · intro h
    have := uuidString_injective h
    omega

/-- Options cell with storage root "r", used to exercise the cache layout. -/
def rootedOptions : MockOptions :=
  { NumWorkers := 1
    NumShards := 1
    EtcdPrefix := ""
    PipelineInfo := { Name := "p", Version := 1 }
    HashtreePath := "r" }

/-- Witness for C4 at a concrete driver (root "r") and run (generator 0). -/
theorem cache_disk_layout_witness :
    ([rootedOptions].getD 0 default).HashtreePath ≠ ""
    ∧ (NewMockDriver [rootedOptions] 0 0).1.ChunkCache =
        some (cache.NewWorkerCache ("r" ++ "/chunk"))
    ∧ datumCachePath ([rootedOptions].getD 0 default).HashtreePath (uuidString 0) =
        ([rootedOptions].getD 0 default).HashtreePath ++ "/datum/" ++ uuidString 0 := by
  refine ⟨by decide, ?_, ?_⟩
  · exact (cache_disk_layout [rootedOptions] 0 0 0 ⟨[]⟩ false false
      (fun s _ _ => (s, none)) (by decide) rfl rfl).1
  · exact (cache_disk_layout [rootedOptions] 0 0 0 ⟨[]⟩ false false
      (fun s _ _ => (s, none)) (by decide) rfl rfl).2.2.1

/-- `pps.JobState` (spec section 4.5): states of the Job state machine. -/
inductive pps.JobState
  | STARTING
  | RUNNING
  | EGRESSING
  | SUCCESS
  | FAILURE
  | KILLED
  deriving DecidableEq, Inhabited

/-- `pps.EtcdJobInfo`, restricted to the fields the state machine touches. -/
structure pps.EtcdJobInfo where
  State : pps.JobState
  Reason : String
  deriving DecidableEq, Inhabited

/-- The etcd "Jobs" collection reached through `md.Jobs()`, modelled as an
association list from job ID to stored record. -/
abbrev JobStore := List (String × pps.EtcdJobInfo)

/-- `Get` on the Jobs collection: first binding of the ID, if any. -/
def getJob : JobStore → String → Option pps.EtcdJobInfo
  | [], _ => none
  | (k, v) :: rest, id => if k == id then some v else getJob rest id

/-- `Put` on the Jobs collection: replace the binding of the ID in place. -/
def putJob : JobStore → String → pps.EtcdJobInfo → JobStore
  | [], id, j => [(id, j)]
  | (k, v) :: rest, id, j =>
    if k == id then (id, j) :: rest else (k, v) :: putJob rest id j

/-- Errors surfaced by `UpdateJobState`. -/
inductive JobStateErr
  | NotFound
  | InvalidTransition
  deriving DecidableEq, Inhabited

/-- Modelled from the spec: the transition validation of
`ppsutil.UpdateJobState` (not under `src/`). Valid transitions are
`STARTING → RUNNING → {SUCCESS, FAILURE, KILLED}` and
`RUNNING → EGRESSING → SUCCESS`; everything else is rejected. -/
def validJobTransition : pps.JobState → pps.JobState → Bool
  | .STARTING, .RUNNING => true
  | .RUNNING, .SUCCESS => true
  | .RUNNING, .FAILURE => true
  | .RUNNING, .KILLED => true
  | .RUNNING, .EGRESSING => true
  | .EGRESSING, .SUCCESS => true
  | _, _ => false

/-- `MockDriver.UpdateJobState` (testing.go), with the inner
`ppsutil.UpdateJobState` modelled from the spec: within one STM transaction
(the single atomic application of this function to the store) the current Job
is read, the transition validated, and the new state plus reason written; an
invalid transition fails with `InvalidTransition` and writes nothing. -/
def MockDriver.UpdateJobState (store : JobStore) (jobID : String)
    (state : pps.JobState) (reason : String) :
    Except JobStateErr Unit × JobStore :=
  match getJob store jobID with
  | none => (.error .NotFound, store)
  | some jobPtr =>
    if validJobTransition jobPtr.State state then
      (.ok (), putJob store jobID { State := state, Reason := reason })
    else
      (.error .InvalidTransition, store)

/-- C2: `UpdateJobState` reads the current Job and applies the transition in
one store transaction; a request outside `STARTING → RUNNING → {SUCCESS,
FAILURE, KILLED}` / `RUNNING → EGRESSING → SUCCESS` fails with
`InvalidTransition` and leaves the store unchanged — in particular
`SUCCESS → RUNNING` fails without modifying the stored record — while a valid
request writes the new state plus reason. -/
theorem updateJobState_invalid_unchanged (store : JobStore) (jobID : String)
    (state : pps.JobState) (reason : String) (j : pps.EtcdJobInfo)
    (hj : getJob store jobID = some j) :
    (validJobTransition j.State state = false →
      MockDriver.UpdateJobState store jobID state reason =
        (.error .InvalidTransition, store))
    ∧ (validJobTransition j.State state = true →
      MockDriver.UpdateJobState store jobID state reason =
        (.ok (), putJob store jobID { State := state, Reason := reason }))
    ∧ (j.State = .SUCCESS →
      MockDriver.UpdateJobState store jobID .RUNNING reason =
        (.error .InvalidTransition, store))
    ∧ (∀ s t, validJobTransition s t = true ↔
        (s = .STARTING ∧ t = .RUNNING) ∨ (s = .RUNNING ∧ t = .SUCCESS)
        ∨ (s = .RUNNING ∧ t = .FAILURE) ∨ (s = .RUNNING ∧ t = .KILLED)
        ∨ (s = .RUNNING ∧ t = .EGRESSING) ∨ (s = .EGRESSING ∧ t = .SUCCESS)) := by
  refine ⟨?_, ?_, ?_, fun s t => by cases s <;> cases t <;> decide⟩
  · intro hv
    simp [MockDriver.UpdateJobState, hj, hv]
  · intro hv
    simp [MockDriver.UpdateJobState, hj, hv]
  · intro hsucc
    have hv : validJobTransition j.State pps.JobState.RUNNING = false := by
      rw [hsucc]
      decide
    simp [MockDriver.UpdateJobState, hj, hv]

/-- Witness for C2: a store holding one job in `SUCCESS`; the request to move
it to `RUNNING` fails with `InvalidTransition` and the store is unchanged. -/
theorem updateJobState_invalid_unchanged_witness :
    getJob [("job1", ⟨pps.JobState.SUCCESS, "done"⟩)] "job1" =
      some ⟨pps.JobState.SUCCESS, "done"⟩
    ∧ MockDriver.UpdateJobState [("job1", ⟨pps.JobState.SUCCESS, "done"⟩)] "job1"
        pps.JobState.RUNNING "stale" =
      (.error .InvalidTransition, [("job1", ⟨pps.JobState.SUCCESS, "done"⟩)]) :=
  ⟨rfl,
   (updateJobState_invalid_unchanged [("job1", ⟨pps.JobState.SUCCESS, "done"⟩)]
      "job1" pps.JobState.RUNNING "stale" ⟨pps.JobState.SUCCESS, "done"⟩ rfl).2.2.1 rfl⟩

/-- `common.Input`: one input of a datum (opaque here). -/
structure common.Input where
  id : Nat
  deriving DecidableEq, Inhabited

/-- `hashtree.Ordered`: an ordered filesystem tree handle (opaque here). -/
structure hashtree.Ordered where
  id : Nat
  deriving DecidableEq, Inhabited

/-- `logs.TaggedLogger` (opaque here). -/
structure logs.TaggedLogger where
  id : Nat
  deriving DecidableEq, Inhabited

/-- `MockDriver.WithData` (testing.go): allocates fresh zero `ProcessStats`
(`stats := &pps.ProcessStats{}`), calls `cb("", stats)` — the empty string —
and returns the stats together with the callback's error. The callback's
mutation of the stats pointer is modelled by the callback returning the
updated stats. -/
def MockDriver.WithData (_data : List common.Input) (_inputTree : hashtree.Ordered)
    (_logger : logs.TaggedLogger)
    (cb : String → pps.ProcessStats → pps.ProcessStats × Option String) :
    pps.ProcessStats × Option String :=
  let stats : pps.ProcessStats := {}
  let r := cb "" stats
  (r.1, r.2)

/-- C3 counterexample: a callback that reports the directory argument it was
invoked with observes `""`, while the driver's local input directory is
`"/pfs"` — so `WithData` does not pass the input directory to `cb`. -/
theorem withData_dir_counterexample :
    (MockDriver.WithData [] default default (fun dir s => (s, some dir))).2 = some ""
    ∧ MockDriver.InputDir default = "/pfs"
    ∧ some "" ≠ some "/pfs" :=
  ⟨rfl, rfl, by decide⟩

/-- C3 (amended): `WithData` invokes `cb` with the empty string as its
directory argument (not the driver's input directory), passing it freshly
zeroed `ProcessStats`, and returns the stats as updated by `cb` together with
`cb`'s error. -/
theorem withData_returns_cb_stats_and_error (data : List common.Input)
    (inputTree : hashtree.Ordered) (logger : logs.TaggedLogger)
    (cb : String → pps.ProcessStats → pps.ProcessStats × Option String) :
    MockDriver.WithData data inputTree logger cb =
      ((cb "" {}).1, (cb "" {}).2) :=
  rfl

/-- Modelled from the spec: `Put(handle, ordinal, partialTree)` on the merge
cache — record one datum's serialized partial tree under its ordinal. -/
def hashtree.MergeCache.Put (c : hashtree.MergeCache) (ordinal : Nat)
    (tree : String) : hashtree.MergeCache :=
  { c with entries := c.entries ++ [(ordinal, tree)] }

/-- Ordering of merge-cache entries by datum ordinal. -/
def ordinalLE (a b : Nat × String) : Prop := a.1 ≤ b.1

instance : DecidableRel ordinalLE := fun a b => Nat.decLe a.1 b.1

instance : IsTotal (Nat × String) ordinalLE := ⟨fun a b => Nat.le_total a.1 b.1⟩

instance : IsTrans (Nat × String) ordinalLE := ⟨fun _ _ _ => Nat.le_trans⟩

/-- Strict ordinal order, used to show sorted entry lists are unique. -/
def ordinalLT (a b : Nat × String) : Prop := a.1 < b.1

instance : IsAntisymm (Nat × String) ordinalLT :=
  ⟨fun _ _ h1 h2 => absurd h2 (Nat.lt_asymm h1)⟩

/-- Modelled from the spec: `Merge(handle)` — combine all stored partial
trees into one filesystem tree ordered by ordinal; the final tree is the
ordinal-sorted sequence of partials. -/
def hashtree.MergeCache.Merge (c : hashtree.MergeCache) : List (Nat × String) :=
  c.entries.insertionSort ordinalLE

/-- Store a batch of (ordinal, partial tree) pairs in the order given. -/
def putAll (c : hashtree.MergeCache) (l : List (Nat × String)) : hashtree.MergeCache :=
  l.foldl (fun c kv => c.Put kv.1 kv.2) c

theorem putAll_entries (l : List (Nat × String)) (c : hashtree.MergeCache) :
    (putAll c l).entries = c.entries ++ l := by
  induction l generalizing c with
  | nil => simp [putAll]
  | cons kv rest ih =>
    simp [putAll, hashtree.MergeCache.Put] at ih ⊢
    rw [ih]
    simp

theorem sorted_entries_unique (l1 l2 : List (Nat × String))
    (hperm : l1.Perm l2) (hnd : (l1.map Prod.fst).Nodup) :
    l1.insertionSort ordinalLE = l2.insertionSort ordinalLE := by
  have hp : (l1.insertionSort ordinalLE).Perm (l2.insertionSort ordinalLE) :=
    (List.perm_insertionSort _ _).trans (hperm.trans (List.perm_insertionSort _ _).symm)
  have hnd2 : (l2.map Prod.fst).Nodup := ((hperm.map Prod.fst).nodup_iff).mp hnd
  have hstrict : ∀ (l : List (Nat × String)), (l.map Prod.fst).Nodup →
      List.Pairwise ordinalLT (l.insertionSort ordinalLE) := by
    intro l hl
    have hsorted : List.Sorted ordinalLE (l.insertionSort ordinalLE) :=
      List.sorted_insertionSort _ _
    have hndS : ((l.insertionSort ordinalLE).map Prod.fst).Nodup :=
      (((List.perm_insertionSort ordinalLE l).map Prod.fst).nodup_iff).mpr hl
    have hne : (l.insertionSort ordinalLE).Pairwise (fun a b => a.1 ≠ b.1) :=
      List.pairwise_map.mp hndS
    exact (List.Pairwise.and hsorted hne).imp fun h => Nat.lt_of_le_of_ne h.1 h.2
  exact List.eq_of_perm_of_sorted hp (hstrict l1 hnd) (hstrict l2 hnd2)

/-- C5: `Merge` over the merge cache is deterministic in the insertion order:
storing partial trees keyed by distinct ordinals in any permutation yields
the identical final (ordinal-ordered) tree. -/
theorem merge_insertion_order_independent (root : String) (l1 l2 : List (Nat × String))
    (hperm : l1.Perm l2) (hnd : (l1.map Prod.fst).Nodup) :
    (putAll (hashtree.NewMergeCache root) l1).Merge =
      (putAll (hashtree.NewMergeCache root) l2).Merge := by
  unfold hashtree.MergeCache.Merge
  rw [putAll_entries, putAll_entries]
  simp only [hashtree.NewMergeCache, List.nil_append]
  exact sorted_entries_unique l1 l2 hperm hnd

/-- Witness for C5: the spec's example `{(0,A),(1,B),(2,C)}` inserted in the
order `(2,C),(0,A),(1,B)` merges to the same tree as in ordinal order. -/
theorem merge_insertion_order_independent_witness :
    ([(0, "A"), (1, "B"), (2, "C")] : List (Nat × String)).Perm
        [(2, "C"), (0, "A"), (1, "B")]
    ∧ (putAll (hashtree.NewMergeCache "m") [(0, "A"), (1, "B"), (2, "C")]).Merge =
        (putAll (hashtree.NewMergeCache "m") [(2, "C"), (0, "A"), (1, "B")]).Merge :=
  ⟨by decide,
   merge_insertion_order_independent "m" [(0, "A"), (1, "B"), (2, "C")]
      [(2, "C"), (0, "A"), (1, "B")] (by decide) (by decide)⟩

/-- A chunk descriptor in the Task Queue (spec section 4.2): lease owner and
completion flag (datum range and index are implicit in the list position). -/
structure ChunkRecord where
  leaseOwner : Option String
  complete : Bool
  deriving DecidableEq, Inhabited

/-- Modelled from the spec: the Task Queue state for one job — the chunk
descriptors the Master writes at job start (`work` package not under `src/`). -/
structure TaskQueueState where
  chunks : List ChunkRecord
  deriving DecidableEq, Inhabited

/-- Modelled from the spec: worker-side events on the chunk namespace —
claiming a chunk (writing a lease), a lease lapsing/being released, and
marking a chunk complete. -/
inductive WorkEvent
  | claimChunk (i : Nat) (owner : String)
  | releaseChunk (i : Nat)
  | completeChunk (i : Nat)
  deriving DecidableEq

/-- Update chunk `i` in place, leaving every other chunk unchanged. -/
def setChunk (l : List ChunkRecord) (i : Nat) (f : ChunkRecord → ChunkRecord) :
    List ChunkRecord :=
  l.mapIdx (fun j c => if j = i then f c else c)

/-- Apply one event: a claim writes a lease, a release clears it, and
completion clears the lease and sets the completion flag; no event other than
`completeChunk i` touches chunk `i`'s completion flag. -/
def applyWorkEvent (s : TaskQueueState) : WorkEvent → TaskQueueState
  | .claimChunk i owner =>
    ⟨setChunk s.chunks i (fun c => { c with leaseOwner := some owner })⟩
  | .releaseChunk i =>
    ⟨setChunk s.chunks i (fun c => { c with leaseOwner := none })⟩
  | .completeChunk i =>
    ⟨setChunk s.chunks i (fun _ => { leaseOwner := none, complete := true })⟩

/-- The chunk namespace as the Master creates it: `n` unclaimed, incomplete
chunks. -/
def initTaskQueue (n : Nat) : TaskQueueState :=
  ⟨List.replicate n { leaseOwner := none, complete := false }⟩

/-- Run a sequence of claim/release/complete events from the initial state. -/
def runWorkEvents (n : Nat) (es : List WorkEvent) : TaskQueueState :=
  es.foldl applyWorkEvent (initTaskQueue n)

/-- Modelled from the spec: the Master "blocks until all chunks report
completion" — it reports the job complete exactly when every chunk's
completion flag is set. -/
def masterReportsComplete (s : TaskQueueState) : Bool :=
  s.chunks.all (fun c => c.complete)

theorem runWorkEvents_length (n : Nat) (es : List WorkEvent) :
    (runWorkEvents n es).chunks.length = n := by
  suffices h : ∀ (es : List WorkEvent) (s : TaskQueueState),
      (es.foldl applyWorkEvent s).chunks.length = s.chunks.length by
    simpa [runWorkEvents, initTaskQueue] using h es (initTaskQueue n)
  intro es
  induction es with
  | nil => intro s; rfl
  | cons e rest ih =>
    intro s
    rw [List.foldl_cons, ih]
    cases e <;> simp [applyWorkEvent, setChunk]

/-- C6: for every sequence of chunk claims, releases and completions, the
Master reports the job complete iff every one of the job's `n` chunks has its
completion flag set, and never while some chunk's flag is unset (the event
run preserves the chunk count, so "every chunk of the job" is all `n`). -/
theorem master_completion_iff_all_chunks (n : Nat) (es : List WorkEvent) :
    (masterReportsComplete (runWorkEvents n es) = true ↔
      ∀ c ∈ (runWorkEvents n es).chunks, c.complete = true)
    ∧ ((∃ c ∈ (runWorkEvents n es).chunks, c.complete = false) →
      masterReportsComplete (runWorkEvents n es) = false)
    ∧ (runWorkEvents n es).chunks.length = n := by
  refine ⟨List.all_eq_true, ?_, runWorkEvents_length n es⟩
  rintro ⟨c, hc, hfalse⟩
  rw [Bool.eq_false_iff]
  intro hall
  have := List.all_eq_true.mp hall c hc
  rw [hfalse] at this
  cases this

/-- `work.Master` (work package, not under `src/`): handle on the task
queue's master side, holding the construction parameters. -/
structure work.Master where
  etcdClient : Nat
  etcdPrefix : String
  taskNamespace : String
  deriving DecidableEq, Inhabited

/-- `work.Worker` (work package, not under `src/`). -/
structure work.Worker where
  etcdClient : Nat
  etcdPrefix : String
  taskNamespace : String
  deriving DecidableEq, Inhabited

/-- `work.NewMaster(etcdClient, etcdPrefix, namespace)`. -/
def work.NewMaster (etcdClient : Nat) (etcdPrefix taskNamespace : String) : work.Master :=
  ⟨etcdClient, etcdPrefix, taskNamespace⟩

/-- `work.NewWorker(etcdClient, etcdPrefix, namespace)`. -/
def work.NewWorker (etcdClient : Nat) (etcdPrefix taskNamespace : String) : work.Worker :=
  ⟨etcdClient, etcdPrefix, taskNamespace⟩

/-- Modelled from the spec: `workNamespace(pipelineInfo)` (driver.go, not
under `src/`) — the namespace isolating one pipeline's tasks from others. -/
def workNamespace (pipelineInfo : pps.PipelineInfo) : String :=
  "/pipeline-" ++ pipelineInfo.Name

/-- `MockDriver.NewTaskMaster` (testing.go). -/
def MockDriver.NewTaskMaster (heap : List MockOptions) (md : MockDriver) : work.Master :=
  work.NewMaster md.etcdClient (heap.getD md.options default).EtcdPrefix
    (workNamespace (heap.getD md.options default).PipelineInfo)

/-- `MockDriver.NewTaskWorker` (testing.go). -/
def MockDriver.NewTaskWorker (heap : List MockOptions) (md : MockDriver) : work.Worker :=
  work.NewWorker md.etcdClient (heap.getD md.options default).EtcdPrefix
    (workNamespace (heap.getD md.options default).PipelineInfo)

/-- `MockDriver.RunUserCode` (testing.go): does nothing, returns nil. -/
def MockDriver.RunUserCode (_logger : logs.TaggedLogger) (_cmd : List String)
    (_stats : pps.ProcessStats) (_timeout : Nat) : Option String := none

/-- `MockDriver.RunUserErrorHandlingCode` (testing.go): does nothing. -/
def MockDriver.RunUserErrorHandlingCode (_logger : logs.TaggedLogger)
    (_cmd : List String) (_stats : pps.ProcessStats) (_timeout : Nat) :
    Option String := none

/-- `MockDriver.UploadOutput` (testing.go): returns empty bytes and nil. -/
def MockDriver.UploadOutput (_dir : String) (_logger : logs.TaggedLogger)
    (_inputs : List common.Input) (_stats : pps.ProcessStats)
    (_tree : hashtree.Ordered) : List Nat × Option String := ([], none)

/-- `Delete` on the Jobs collection: drop the binding of the ID. -/
def deleteJobEntry : JobStore → String → JobStore
  | [], _ => []
  | (k, v) :: rest, id => if k == id then rest else (k, v) :: deleteJobEntry rest id

/-- `MockDriver.DeleteJob` (testing.go): deletes the job's entry from the
Jobs collection through the STM (`md.Jobs().ReadWrite(stm).Delete(...)`). -/
def MockDriver.DeleteJob (store : JobStore) (jobID : String) : JobStore :=
  deleteJobEntry store jobID

/-- Modelled from the spec: the Driver capability contract (spec section 9) —
the operations every Driver implementation must provide, at the types of this
embedding. -/
structure DriverContract where
  WithData : List common.Input → hashtree.Ordered → logs.TaggedLogger →
    (String → pps.ProcessStats → pps.ProcessStats × Option String) →
    pps.ProcessStats × Option String
  RunUserCode : logs.TaggedLogger → List String → pps.ProcessStats → Nat →
    Option String
  RunUserErrorHandlingCode : logs.TaggedLogger → List String →
    pps.ProcessStats → Nat → Option String
  UploadOutput : String → logs.TaggedLogger → List common.Input →
    pps.ProcessStats → hashtree.Ordered → List Nat × Option String
  UpdateJobState : JobStore → String → pps.JobState → String →
    Except JobStateErr Unit × JobStore
  DeleteJob : JobStore → String → JobStore
  NewTaskMaster : work.Master
  NewTaskWorker : work.Worker
  ChunkCache : Option cache.WorkerCache
  ChunkStatsCache : Option cache.WorkerCache

/-- The MockDriver's implementation of the Driver capability contract
(the Go compile-time check `var _ Driver = &MockDriver{}`). -/
def MockDriverOps (heap : List MockOptions) (md : MockDriver) : DriverContract :=
  { WithData := MockDriver.WithData
    RunUserCode := MockDriver.RunUserCode
    RunUserErrorHandlingCode := MockDriver.RunUserErrorHandlingCode
    UploadOutput := MockDriver.UploadOutput
    UpdateJobState := MockDriver.UpdateJobState
    DeleteJob := MockDriver.DeleteJob
    NewTaskMaster := MockDriver.NewTaskMaster heap md
    NewTaskWorker := MockDriver.NewTaskWorker heap md
    ChunkCache := md.ChunkCache
    ChunkStatsCache := md.ChunkStatsCache }

/-- C7: the mock driver provides every operation of the Driver capability
contract: the complicated operations are no-ops or in-memory stand-ins
(`RunUserCode`/`RunUserErrorHandlingCode` return nil, `UploadOutput` returns
empty bytes, `WithData` just runs the callback), while the etcd-backed
operations (`UpdateJobState`, `DeleteJob`, task master/worker construction
and the cache accessors) are the functioning store operations. -/
theorem mockDriver_satisfies_contract (heap : List MockOptions) (md : MockDriver) :
    (MockDriverOps heap md).RunUserCode = (fun _ _ _ _ => none)
    ∧ (MockDriverOps heap md).RunUserErrorHandlingCode = (fun _ _ _ _ => none)
    ∧ (MockDriverOps heap md).UploadOutput = (fun _ _ _ _ _ => ([], none))
    ∧ (MockDriverOps heap md).WithData = MockDriver.WithData
    ∧ (MockDriverOps heap md).UpdateJobState = MockDriver.UpdateJobState
    ∧ (MockDriverOps heap md).DeleteJob = MockDriver.DeleteJob
    ∧ (MockDriverOps heap md).NewTaskMaster =
        work.NewMaster md.etcdClient (heap.getD md.options default).EtcdPrefix
          (workNamespace (heap.getD md.options default).PipelineInfo)
    ∧ (MockDriverOps heap md).NewTaskWorker =
        work.NewWorker md.etcdClient (heap.getD md.options default).EtcdPrefix
          (workNamespace (heap.getD md.options default).PipelineInfo)
    ∧ (MockDriverOps heap md).ChunkCache = md.chunkCache
    ∧ (MockDriverOps heap md).ChunkStatsCache = md.chunkStatsCache :=
  ⟨rfl, rfl, rfl, rfl, rfl, rfl, rfl, rfl, rfl, rfl⟩
